import Mathlib

/-!
Shallow embedding of the mcp_bot repository (backend of a demo chat assistant):
the two Tool Adapters (`ChromaDBTool`, `MongoDBTool`), the `MCPClient` dispatch
loop, the LangGraph routing workflow nodes, and the HTTP facade's query
endpoint, together with theorems settling the specification claims.

External stores are modelled explicitly: the document database as a list of
named collections of documents, the vector store as an oracle structure whose
retrieval behaviour is an opaque function field.  Machine-level details that
no adapter logic depends on (BSON ObjectId generation, floating point
distance scores) are replaced by deterministic stand-ins, noted at the
definitions concerned.
-/

namespace McpBot

/-- A scalar value as it appears in tool arguments, documents and results
(`str`, `int`, `bool` at the JSON level). -/
inductive Scalar where
  | s (v : String)
  | i (v : Int)
  | b (v : Bool)
deriving DecidableEq, Repr

/-- A document: an ordered field-to-scalar mapping (a Python dict). -/
abbrev Doc := List (String × Scalar)

/-- The `data` argument of the record adapter: a single document or a list of
documents (`isinstance(data, list)` in `MongoDBTool.execute`). -/
inductive DataVal where
  | obj (d : Doc)
  | arr (ds : List Doc)
deriving DecidableEq, Repr

/-- The argument mapping passed to a tool's `execute`.  Each field models one
key the Python code reads with `args.get(...)`; an `Option` field is `none`
when the key is absent, and defaults mirror the `.get` defaults
(`filter` defaults to absent because `ChromaDBTool` uses `args.get("filter")`
with no default, while `MongoDBTool` uses `{}`; the adapters apply their own
defaults below). -/
structure Args where
  operation : Option String := none
  collection : Option String := none
  filter : Option Doc := none
  data : DataVal := DataVal.obj []
  limit : Int := 0
  sort : Option (List (String × Int)) := none
  query : Option String := none
  n_results : Int := 3
  document : Option String := none
  metadata : Doc := []
  id : Option String := none
deriving DecidableEq, Repr

/-- Python truthiness of an optional string (`if not operation`): absent and
the empty string are both falsy. -/
def strTruthy : Option String → Bool
  | none => false
  | some v => !(v == "")

/-- Python truthiness of the `data` argument (`if not data`). -/
def dataTruthy : DataVal → Bool
  | DataVal.obj d => !d.isEmpty
  | DataVal.arr ds => !ds.isEmpty

/-- A value appearing in a tool result mapping. -/
inductive RVal where
  | sc (v : Scalar)
  | docList (v : List Doc)
  | optDoc (v : Option Doc)
  | strList (v : List String)
  | scList (v : List Scalar)
deriving DecidableEq, Repr

/-- A tool result: the mapping a Tool Adapter's `execute` returns. -/
abbrev ToolResult := List (String × RVal)

/-- An error-shaped result: a mapping containing an `error` key. -/
def hasError (r : ToolResult) : Bool := (r.lookup "error").isSome

/-- String form of a scalar (Python `str(...)`, as used for `_id` fields). -/
def scalarToStr : Scalar → String
  | Scalar.s v => v
  | Scalar.i v => toString v
  | Scalar.b true => "True"
  | Scalar.b false => "False"

/-- JSON string quoting (escaping of special characters elided: no message
the claims touch contains characters needing escapes). -/
def jstr (v : String) : String := "\"" ++ v ++ "\""

/-- JSON form of a scalar. -/
def dumpScalar : Scalar → String
  | Scalar.s v => jstr v
  | Scalar.i v => toString v
  | Scalar.b true => "true"
  | Scalar.b false => "false"

/-- JSON form of a document. -/
def dumpDoc (d : Doc) : String :=
  "\x7b" ++ String.intercalate ", " (d.map fun kv => jstr kv.1 ++ ": " ++ dumpScalar kv.2) ++ "\x7d"

/-- JSON form of a result value. -/
def dumpRVal : RVal → String
  | RVal.sc v => dumpScalar v
  | RVal.docList ds => "[" ++ String.intercalate ", " (ds.map dumpDoc) ++ "]"
  | RVal.optDoc none => "null"
  | RVal.optDoc (some d) => dumpDoc d
  | RVal.strList vs => "[" ++ String.intercalate ", " (vs.map jstr) ++ "]"
  | RVal.scList vs => "[" ++ String.intercalate ", " (vs.map dumpScalar) ++ "]"

/-- `json.dumps` over a tool result, as used by the dispatch loop when it
feeds tool output back to the completion endpoint. -/
def dumps (r : ToolResult) : String :=
  "\x7b" ++ String.intercalate ", " (r.map fun kv => jstr kv.1 ++ ": " ++ dumpRVal kv.2) ++ "\x7d"

/-- Python `str.lower()` (character-wise; the keyword tests of this
repository only involve ASCII text). -/
def strLower (s : String) : String := String.mk (s.toList.map Char.toLower)

/-- Substring test on character lists (Python `needle in hay` on strings). -/
def substrAux (n : List Char) : List Char → Bool
  | [] => n.isEmpty
  | c :: t => n.isPrefixOf (c :: t) || substrAux n t

/-- Substring test on strings (Python `needle in hay`). -/
def isSubstr (needle hay : String) : Bool := substrAux needle.toList hay.toList

/-- The document database: named collections, each a list of documents. -/
abbrev MongoDB := List (String × List Doc)

/-- `self.db.list_collection_names()`. -/
def collNames (db : MongoDB) : List String := db.map Prod.fst

/-- The documents of one collection (empty when the name is absent). -/
def getColl (db : MongoDB) (c : String) : List Doc := (db.lookup c).getD []

/-- Replace the documents of one collection. -/
def setColl (db : MongoDB) (c : String) (docs : List Doc) : MongoDB :=
  db.map fun p => if p.1 == c then (c, docs) else p

/-- Field-equality filter match: every filter field is present in the
document with the given value (the only filter form this repository uses). -/
def matchesFilter (filt : Doc) (d : Doc) : Bool :=
  filt.all fun kv => d.lookup kv.1 == some kv.2

/-- Store-side `$set` of a single field: replace the field in place when
present, append it otherwise. -/
def setField (k : String) (v : Scalar) (d : Doc) : Doc :=
  if d.any (fun kv => kv.1 == k) then
    d.map fun kv => if kv.1 == k then (k, v) else kv
  else
    d ++ [(k, v)]

/-- Store-side `$set` merge-patch: apply every patch field in order. -/
def applySet (data : Doc) (d : Doc) : Doc :=
  data.foldl (fun acc kv => setField kv.1 kv.2 acc) d

/-- `doc["_id"] = str(doc["_id"])` in the `find` branches: convert the `_id`
field to its string form (every stored document carries an `_id`, so the
unconverted case never arises at run time; a document without one is left
unchanged here). -/
def convertId (d : Doc) : Doc :=
  d.map fun kv => if kv.1 == "_id" then ("_id", Scalar.s (scalarToStr kv.2)) else kv

/-- Store-side comparison of two documents under one sort key, ascending when
the direction is positive (a deterministic stand-in for the BSON order,
restricted to the scalar types of this model: ints before strings before
booleans). -/
def scalarLe : Scalar → Scalar → Bool
  | Scalar.i a, Scalar.i b => a ≤ b
  | Scalar.i _, _ => true
  | Scalar.s _, Scalar.i _ => false
  | Scalar.s a, Scalar.s b => a ≤ b
  | Scalar.s _, Scalar.b _ => true
  | Scalar.b a, Scalar.b b => !a || b
  | Scalar.b _, _ => false

/-- Lexicographic document order under an ordered sort specification. -/
def docLe (spec : List (String × Int)) (a b : Doc) : Bool :=
  match spec with
  | [] => true
  | (k, dir) :: rest =>
    let va := (a.lookup k).getD (Scalar.i 0)
    let vb := (b.lookup k).getD (Scalar.i 0)
    if va == vb then docLe rest a b
    else if dir ≥ 0 then scalarLe va vb else scalarLe vb va

/-- Stable insertion into a sorted list. -/
def insertSorted (le : Doc → Doc → Bool) (d : Doc) : List Doc → List Doc
  | [] => [d]
  | e :: t => if le d e then d :: e :: t else e :: insertSorted le d t

/-- Stable store-side sort (the server applies `sort` before `limit`
regardless of the order the cursor methods are chained in). -/
def sortDocs (spec : List (String × Int)) (docs : List Doc) : List Doc :=
  docs.foldr (insertSorted (docLe spec)) []

/-- Deterministic stand-in for server-generated ObjectIds on insert: derived
from the collection name and its current size (no adapter logic depends on
the identifier text). -/
def genId (c : String) (n : Nat) : String := "oid-" ++ c ++ "-" ++ toString n

/-- Insert one document, adding a generated `_id` when absent; returns the
string form of the inserted id and the new collection contents
(`collection.insert_one`). -/
def insertOne (c : String) (docs : List Doc) (d : Doc) : String × List Doc :=
  match d.lookup "_id" with
  | some v => (scalarToStr v, docs ++ [d])
  | none =>
    let oid := genId c docs.length
    (oid, docs ++ [d ++ [("_id", Scalar.s oid)]])

/-- Insert many documents in order (`collection.insert_many`). -/
def insertMany (c : String) (docs : List Doc) : List Doc → List String × List Doc
  | [] => ([], docs)
  | d :: rest =>
    let step := insertOne c docs d
    let next := insertMany c step.2 rest
    (step.1 :: next.1, next.2)

namespace MongoDBTool

/-- The declared operation set of the record adapter (the `enum` of its tool
schema, and the operations `execute` dispatches on). -/
def operations : List String := ["find", "find_one", "count", "insert", "update", "delete"]

/-- `MongoDBTool.execute`: runs one operation against the document database
and returns the result mapping together with the database afterwards.
Mirrors the source: the operation/collection presence guard, then the
collection-existence guard, then the per-operation branches. -/
def execute (args : Args) (db : MongoDB) : ToolResult × MongoDB :=
  let filt := args.filter.getD []
  if !(strTruthy args.operation) || !(strTruthy args.collection) then
    ([("error", RVal.sc (Scalar.s "Operation and collection are required"))], db)
  else
    let op := args.operation.getD ""
    let c := args.collection.getD ""
    if !((collNames db).contains c) then
      ([("error", RVal.sc (Scalar.s ("Collection '" ++ c ++ "' does not exist")))], db)
    else
      let docs := getColl db c
      if op == "find" then
        let found := docs.filter (matchesFilter filt)
        let sorted := match args.sort with
          | some spec => sortDocs spec found
          | none => found
        let limited := if args.limit > 0 then sorted.take args.limit.toNat else sorted
        ([("results", RVal.docList (limited.map convertId))], db)
      else if op == "find_one" then
        ([("result", RVal.optDoc (((docs.filter (matchesFilter filt)).head?).map convertId))], db)
      else if op == "count" then
        ([("count", RVal.sc (Scalar.i (docs.countP (matchesFilter filt))))], db)
      else if op == "insert" then
        if !(dataTruthy args.data) then
          ([("error", RVal.sc (Scalar.s "Data is required for insert operation"))], db)
        else
          match args.data with
          | DataVal.arr ds =>
            let step := insertMany c docs ds
            ([("inserted_ids", RVal.strList step.1)], setColl db c step.2)
          | DataVal.obj d =>
            let step := insertOne c docs d
            ([("inserted_id", RVal.sc (Scalar.s step.1))], setColl db c step.2)
      else if op == "update" then
        if !(dataTruthy args.data) then
          ([("error", RVal.sc (Scalar.s "Data is required for update operation"))], db)
        else
          let data := match args.data with
            | DataVal.obj d => d
            | DataVal.arr _ => []
          let matched := docs.countP (matchesFilter filt)
          let modified := docs.countP (fun d => matchesFilter filt d && (applySet data d != d))
          let newDocs := docs.map fun d => if matchesFilter filt d then applySet data d else d
          ([("matched_count", RVal.sc (Scalar.i matched)),
            ("modified_count", RVal.sc (Scalar.i modified))], setColl db c newDocs)
      else if op == "delete" then
        let deleted := docs.countP (matchesFilter filt)
        ([("deleted_count", RVal.sc (Scalar.i deleted))],
         setColl db c (docs.filter fun d => !(matchesFilter filt d)))
      else
        ([("error", RVal.sc (Scalar.s ("Operation '" ++ op ++ "' is not supported")))], db)

end MongoDBTool

/-- One call made to the vector store by the search adapter (execution trace,
used to state that guarded branches never reach the store). -/
inductive ChromaOp where
  | query (q : String) (n : Int) (whereFilter : Option Doc)
  | add (document : String) (metadata : Doc) (id : String)
  | delete (id : String)
  | stats
deriving DecidableEq, Repr

/-- The vector store's reply to one retrieval call (already flattened to the
first query's row, as the adapter does with `results.get(...)[0]`).
Distance scores are floating point in the real store; they are carried as
opaque scalars here since no adapter logic inspects them. -/
structure ChromaQueryReply where
  documents : List String
  metadatas : List Doc
  distances : List Scalar
  ids : List String

/-- The vector store, modelled as an oracle: retrieval is an opaque function
of the query text, the requested count and the optional where-filter;
`freshId` stands in for `str(uuid.uuid4())` on add. -/
structure ChromaStore where
  queryFn : String → Int → Option Doc → ChromaQueryReply
  statsCount : Int
  statsCollections : List String
  freshId : String

namespace ChromaDBTool

/-- The declared operation set of the search adapter. -/
def operations : List String := ["query", "add", "delete", "stats"]

/-- `ChromaDBTool._execute_query`: the query-text guard, then one retrieval
call with the where-filter attached only when the filter dict is non-empty. -/
def executeQuery (store : ChromaStore) (args : Args) : ToolResult × List ChromaOp :=
  if !(strTruthy args.query) then
    ([("error", RVal.sc (Scalar.s "Query is required for query operation"))], [])
  else
    let q := args.query.getD ""
    let whereFilter := match args.filter with
      | some f => if f.isEmpty then none else some f
      | none => none
    let reply := store.queryFn q args.n_results whereFilter
    ([("documents", RVal.strList reply.documents),
      ("metadatas", RVal.docList reply.metadatas),
      ("distances", RVal.scList reply.distances),
      ("ids", RVal.strList reply.ids)],
     [ChromaOp.query q args.n_results whereFilter])

/-- `ChromaDBTool._execute_add`. -/
def executeAdd (store : ChromaStore) (args : Args) : ToolResult × List ChromaOp :=
  if !(strTruthy args.document) then
    ([("error", RVal.sc (Scalar.s "Document is required for add operation"))], [])
  else
    ([("id", RVal.sc (Scalar.s store.freshId)), ("status", RVal.sc (Scalar.s "added"))],
     [ChromaOp.add (args.document.getD "") args.metadata store.freshId])

/-- `ChromaDBTool._execute_delete`. -/
def executeDelete (args : Args) : ToolResult × List ChromaOp :=
  if !(strTruthy args.id) then
    ([("error", RVal.sc (Scalar.s "ID is required for delete operation"))], [])
  else
    ([("id", RVal.sc (Scalar.s (args.id.getD ""))), ("status", RVal.sc (Scalar.s "deleted"))],
     [ChromaOp.delete (args.id.getD "")])

/-- `ChromaDBTool._execute_stats`. -/
def executeStats (store : ChromaStore) : ToolResult × List ChromaOp :=
  ([("count", RVal.sc (Scalar.i store.statsCount)),
    ("collections", RVal.strList store.statsCollections)], [ChromaOp.stats])

/-- `ChromaDBTool.execute`: the operation-presence guard, then dispatch on
the operation name; the catch-all returns the unknown-operation error.  (The
surrounding `try` of the source never fires in this model because every
branch is total.) -/
def execute (store : ChromaStore) (args : Args) : ToolResult × List ChromaOp :=
  if !(strTruthy args.operation) then
    ([("error", RVal.sc (Scalar.s "Operation is required"))], [])
  else
    let op := args.operation.getD ""
    if op == "query" then executeQuery store args
    else if op == "add" then executeAdd store args
    else if op == "delete" then executeDelete args
    else if op == "stats" then executeStats store
    else ([("error", RVal.sc (Scalar.s ("Unknown operation '" ++ op ++ "'")))], [])

end ChromaDBTool

/-- The process-wide state behind the Tool Registry: the vector store oracle
and the document database.  (The search adapter's writes do not alter the
retrieval oracle within one query in this model.) -/
structure World where
  chroma : ChromaStore
  mongo : MongoDB

namespace MCPClient

/-- Membership in the registry built by `MCPClient.initialize`
(`self.tools` holds exactly `chromadb` and `mongodb`). -/
def knownTool (name : String) : Bool := name == "chromadb" || name == "mongodb"

/-- Dispatch a known tool name to its adapter (`self.tools[tool_name].execute`). -/
def executeTool (name : String) (args : Args) (w : World) : ToolResult × World :=
  if name == "chromadb" then
    ((ChromaDBTool.execute w.chroma args).1, w)
  else
    let step := MongoDBTool.execute args w.mongo
    (step.1, { w with mongo := step.2 })

/-- `MCPClient.call_tool`: raises `ValueError` (modelled as `Except.error`)
when the name is not in the registry, otherwise delegates to the adapter. -/
def call_tool (name : String) (args : Args) (w : World) : Except String (ToolResult × World) :=
  if !(knownTool name) then
    Except.error ("Tool '" ++ name ++ "' not found")
  else
    Except.ok (executeTool name args w)

/-- One tool invocation requested by the completion endpoint: correlation id,
tool name, and the (already JSON-parsed) argument mapping. -/
structure ToolCall where
  id : String
  name : String
  args : Args
deriving DecidableEq, Repr

/-- The first completion call's reply message: optional text content plus the
requested tool invocations (`[]` models the falsy `tool_calls` of a reply
that requests no tools). -/
structure CompletionMessage where
  content : Option String
  tool_calls : List ToolCall
deriving DecidableEq, Repr

/-- One recorded `{name, args, result}` entry of the dispatch loop. -/
structure ToolRecord where
  name : String
  args : Args
  result : ToolResult
deriving DecidableEq, Repr

/-- A conversation turn as the dispatch loop builds them. -/
inductive Msg where
  | system (content : String)
  | user (content : String)
  | assistant (content : String) (tool_calls : List ToolCall)
  | tool (tool_call_id : String) (name : String) (content : String)
deriving DecidableEq, Repr

/-- The tool-result turns of a turn sequence. -/
def toolTurns (ms : List Msg) : List Msg :=
  ms.filter fun m => match m with
    | Msg.tool _ _ _ => true
    | _ => false

/-- The dispatch loop's body (`for tool_call in response_message.tool_calls`):
invocations whose name is in the registry are executed in order and recorded;
invocations with unknown names are skipped. -/
def runDispatch : List ToolCall → World → List ToolRecord × World
  | [], w => ([], w)
  | tc :: rest, w =>
    if knownTool tc.name then
      let step := executeTool tc.name tc.args w
      let next := runDispatch rest step.2
      (⟨tc.name, tc.args, step.1⟩ :: next.1, next.2)
    else
      runDispatch rest w

/-- The tool-result turns appended to the follow-up sequence
(`for i, tool_call in enumerate(tool_calls)`): the turn for the i-th
*recorded* result takes its correlation id from the i-th entry of the
*requested* invocation list (`response_message.tool_calls[i].id`) — a
lockstep walk over both lists.  (The record list is never longer than the
request list, so the Python index is always in range; the truncating clause
below is therefore unreachable.) -/
def toolMsgs : List ToolRecord → List ToolCall → List Msg
  | [], _ => []
  | _ :: _, [] => []
  | r :: rs, tc :: tcs => Msg.tool tc.id r.name (dumps r.result) :: toolMsgs rs tcs

/-- The system persona turn of both completion calls. -/
def systemPrompt : String :=
  "You are Tehotna Ukrajinka, a helpful assistant. Use the available tools to retrieve information when needed."

/-- The outcome of `MCPClient.process_query`: the returned mapping
(`response`, `tool_calls`) plus trace fields for the claims — the follow-up
turn sequence sent to the second completion call (empty when none was made),
whether that second call happened, the records dispatched, and the final
store state. -/
structure ProcessQueryResult where
  response : Option String
  tool_calls : Option (List ToolRecord)
  followUp : List Msg
  secondCalled : Bool
  dispatched : List ToolRecord
  world : World

/-- `MCPClient.process_query`, with the two completion-endpoint calls as
inputs: `first` is the reply to the initial call, `second` the (opaque)
endpoint answering the follow-up call. -/
def process_query (query : String) (first : CompletionMessage)
    (second : List Msg → Option String) (w : World) : ProcessQueryResult :=
  if first.tool_calls.isEmpty then
    { response := first.content, tool_calls := none, followUp := [],
      secondCalled := false, dispatched := [], world := w }
  else
    let step := runDispatch first.tool_calls w
    let followUp :=
      [Msg.system systemPrompt, Msg.user query,
       Msg.assistant (first.content.getD "") first.tool_calls]
      ++ toolMsgs step.1 first.tool_calls
    { response := second followUp,
      tool_calls := if step.1.isEmpty then none else some step.1,
      followUp := followUp, secondCalled := true, dispatched := step.1,
      world := step.2 }

end MCPClient

namespace MCPGraph

/-- The route chosen by the analysis node. -/
inductive Route where
  | search
  | database
  | direct
  | error
deriving DecidableEq, Repr

/-- The search-intent keyword set of `_analyze_query_node`. -/
def searchKeywords : List String :=
  ["search", "find", "what is", "tell me about", "explain", "definition"]

/-- The record-intent keyword set of `_analyze_query_node`. -/
def databaseKeywords : List String :=
  ["user", "product", "database", "count", "list", "show"]

/-- The classification body of `_analyze_query_node`: lowercase the query,
then the ordered keyword-membership tests. -/
def analyzeRoute (q : String) : Route :=
  let ql := strLower q
  if searchKeywords.any (fun w => isSubstr w ql) then Route.search
  else if databaseKeywords.any (fun w => isSubstr w ql) then Route.database
  else Route.direct

/-- The `try`/`except` shape of `_analyze_query_node`: a normal body result
sets the route; an exception sets the error string and the error route
instead of propagating.  Returns (route, error field). -/
def analyzeQueryNode (body : Except String Route) : Route × Option String :=
  match body with
  | Except.ok r => (r, none)
  | Except.error e => (Route.error, some ("Analysis error: " ++ e))

/-- `_route_after_analysis`: an already-set error wins, else the stored route
(defaulting to direct). -/
def routeAfterAnalysis (error : Option String) (route : Option Route) : Route :=
  match error with
  | some _ => Route.error
  | none => route.getD Route.direct

/-- The entity branch taken inside `_query_database_node`. -/
inductive DbBranch where
  | users
  | products
  | neither
deriving DecidableEq, Repr

/-- The outcome of `_query_database_node`: branch taken, the mongodb calls
made in order, the combined result, and the context title. -/
structure DbNodeResult where
  branch : DbBranch
  calls : List Args
  result : ToolResult
  contextTitle : String
deriving Repr

/-- `result.get("count", 0)` when combining the two count calls. -/
def getCount (r : ToolResult) : Int :=
  match r.lookup "count" with
  | some (RVal.sc (Scalar.i n)) => n
  | _ => 0

/-- The argument mapping of the users find call. -/
def usersFindArgs : Args := { operation := some "find", collection := some "users", limit := 5 }

/-- The argument mapping of the products find call. -/
def productsFindArgs : Args := { operation := some "find", collection := some "products", limit := 5 }

/-- The argument mapping of a count call on one collection. -/
def countArgs (c : String) : Args := { operation := some "count", collection := some c }

/-- `_query_database_node`: a second keyword inspection of the lowercased
query decides the collection — `user` wins, then `product`, else both
collections are counted and the counts combined.  Results come from
`MCPClient.call_tool "mongodb"`, whose adapter call is threaded through the
database state. -/
def queryDatabaseNode (q : String) (db : MongoDB) : DbNodeResult × MongoDB :=
  let ql := strLower q
  if isSubstr "user" ql then
    let step := MongoDBTool.execute usersFindArgs db
    ({ branch := DbBranch.users, calls := [usersFindArgs], result := step.1,
       contextTitle := "Users in Database:" }, step.2)
  else if isSubstr "product" ql then
    let step := MongoDBTool.execute productsFindArgs db
    ({ branch := DbBranch.products, calls := [productsFindArgs], result := step.1,
       contextTitle := "Products in Database:" }, step.2)
  else
    let usersStep := MongoDBTool.execute (countArgs "users") db
    let productsStep := MongoDBTool.execute (countArgs "products") usersStep.2
    ({ branch := DbBranch.neither, calls := [countArgs "users", countArgs "products"],
       result := [("users_count", RVal.sc (Scalar.i (getCount usersStep.1))),
                  ("products_count", RVal.sc (Scalar.i (getCount productsStep.1)))],
       contextTitle := "Database Statistics:" }, productsStep.2)

end MCPGraph

namespace Facade

/-- A value of the query endpoint's response envelope. -/
inductive EnvelopeVal where
  | optText (v : Option String)
  | text (v : String)
  | mcpCalls (v : Option (List MCPClient.ToolRecord))
  | graphCalls (v : List MCPClient.ToolRecord)
  | agentSteps (v : List String)
  | label (v : String)

/-- The `langgraph` method's result, as `TehotnaUkrajinkaMCPGraph.process_query`
returns it (the message history is dropped: the endpoint never reads it). -/
structure GraphQueryResult where
  response : String
  mcp_tool_calls : List MCPClient.ToolRecord

/-- The `langchain` method's result, as `TehotnaUkrajinkaAgent.process_query`
returns it; intermediate steps are opaque to the endpoint. -/
structure AgentQueryResult where
  response : String
  intermediate_steps : List String

/-- The success path of the facade's `POST /query` handler: one envelope per
processing method, built field by field as in the source. -/
def processQueryEndpoint (method : String) (mcpResult : MCPClient.ProcessQueryResult)
    (graphResult : GraphQueryResult) (agentResult : AgentQueryResult) :
    List (String × EnvelopeVal) :=
  if method == "mcp" then
    [("response", EnvelopeVal.optText mcpResult.response),
     ("tool_calls", EnvelopeVal.mcpCalls mcpResult.tool_calls),
     ("method", EnvelopeVal.label "MCP Direct")]
  else if method == "langgraph" then
    [("response", EnvelopeVal.text graphResult.response),
     ("tool_calls", EnvelopeVal.graphCalls graphResult.mcp_tool_calls),
     ("method", EnvelopeVal.label "LangGraph + MCP")]
  else
    [("response", EnvelopeVal.text agentResult.response),
     ("tool_calls", EnvelopeVal.agentSteps agentResult.intermediate_steps),
     ("method", EnvelopeVal.label "LangChain + MCP")]

end Facade

/-!  Concrete fixtures: the sample data seeded by `MongoDBTool.initialize`
(the nested `preferences` sub-document of the user records is elided — this
model keeps scalar fields only, and no behaviour under test reads it; `_id`
fields stand in for the server-assigned ObjectIds). -/

/-- The seeded `users` collection. -/
def seedUsers : List Doc :=
  [[("_id", Scalar.s "u1"), ("name", Scalar.s "John Doe"),
    ("email", Scalar.s "john@example.com"), ("role", Scalar.s "admin")],
   [("_id", Scalar.s "u2"), ("name", Scalar.s "Jane Smith"),
    ("email", Scalar.s "jane@example.com"), ("role", Scalar.s "user")]]

/-- The seeded `products` collection. -/
def seedProducts : List Doc :=
  [[("_id", Scalar.s "p1"), ("name", Scalar.s "Laptop"), ("price", Scalar.i 1200),
    ("category", Scalar.s "electronics"), ("in_stock", Scalar.b true)],
   [("_id", Scalar.s "p2"), ("name", Scalar.s "Phone"), ("price", Scalar.i 800),
    ("category", Scalar.s "electronics"), ("in_stock", Scalar.b true)],
   [("_id", Scalar.s "p3"), ("name", Scalar.s "Desk"), ("price", Scalar.i 350),
    ("category", Scalar.s "furniture"), ("in_stock", Scalar.b false)]]

/-- The seeded document database. -/
def seedDb : MongoDB := [("users", seedUsers), ("products", seedProducts)]

/-- An empty retrieval reply. -/
def emptyReply : ChromaQueryReply := { documents := [], metadatas := [], distances := [], ids := [] }

/-- A concrete vector store oracle matching the seeded knowledge base size. -/
def seedStore : ChromaStore :=
  { queryFn := fun _ _ _ => emptyReply, statsCount := 15,
    statsCollections := ["knowledge_base"], freshId := "fresh-0" }

/-- A concrete process-wide state. -/
def w0 : World := { chroma := seedStore, mongo := seedDb }

/-!  Helper lemmas. -/

theorem substrAux_eq_true_iff (n : List Char) :
    ∀ h : List Char, substrAux n h = true ↔ n <:+: h := by
  intro h
  induction h with
  | nil => simp [substrAux, List.isEmpty_iff, List.infix_nil]
  | cons c t ih =>
    simp only [substrAux, Bool.or_eq_true, ih, List.infix_cons_iff,
      List.isPrefixOf_iff_prefix]

theorem isSubstr_eq_true_iff (needle hay : String) :
    isSubstr needle hay = true ↔ needle.toList <:+: hay.toList := by
  simpa [isSubstr] using substrAux_eq_true_iff needle.toList hay.toList

/-- Association lookup skips a head entry with a different key. -/
theorem lookup_cons_ne {β : Type} (a k : String) (b : β) (l : List (String × β))
    (h : k ≠ a) : List.lookup k ((a, b) :: l) = List.lookup k l := by
  rw [List.lookup_cons]
  have hb : (k == a) = false := by simpa using h
  simp [hb]

/-- Association lookup finds a head entry with the same key. -/
theorem lookup_cons_self {β : Type} (k : String) (b : β) (l : List (String × β)) :
    List.lookup k ((k, b) :: l) = some b := by
  rw [List.lookup_cons]
  simp

/-- Overwriting one key of an association list leaves other lookups alone. -/
theorem lookup_map_overwrite (k k' : String) (v : Scalar) (hne : k' ≠ k) :
    ∀ t : Doc,
      List.lookup k' (t.map fun kv => if kv.1 == k then (k, v) else kv) = List.lookup k' t := by
  intro t
  induction t with
  | nil => rfl
  | cons kv t ih =>
    obtain ⟨a, b⟩ := kv
    by_cases hk : a = k
    · subst hk
      have hc : (a == a) = true := by simp
      simp only [List.map_cons]
      rw [if_pos hc, lookup_cons_ne a k' v _ hne, lookup_cons_ne a k' b t hne, ih]
    · have hc : ¬((a == k) = true) := by simp [hk]
      simp only [List.map_cons]
      rw [if_neg hc]
      by_cases hk2 : k' = a
      · subst hk2
        rw [lookup_cons_self, lookup_cons_self]
      · rw [lookup_cons_ne a k' b _ hk2, lookup_cons_ne a k' b t hk2, ih]

/-- Appending an entry with a different key leaves lookups alone. -/
theorem lookup_append_key (k k' : String) (v : Scalar) (hne : k' ≠ k) :
    ∀ t : Doc, List.lookup k' (t ++ [(k, v)]) = List.lookup k' t := by
  intro t
  induction t with
  | nil =>
    simp only [List.nil_append]
    rw [lookup_cons_ne k k' v [] hne]
  | cons kv t ih =>
    obtain ⟨a, b⟩ := kv
    by_cases hk2 : k' = a
    · subst hk2
      simp only [List.cons_append]
      rw [lookup_cons_self, lookup_cons_self]
    · simp only [List.cons_append]
      rw [lookup_cons_ne a k' b _ hk2, lookup_cons_ne a k' b t hk2, ih]

/-- `setField` leaves every other field untouched. -/
theorem lookup_setField_ne (k k' : String) (v : Scalar) (d : Doc) (hne : k' ≠ k) :
    (setField k v d).lookup k' = d.lookup k' := by
  unfold setField
  split
  · exact lookup_map_overwrite k k' v hne d
  · exact lookup_append_key k k' v hne d

/-- The merge-patch leaves every field outside the patch untouched: this is a
field-level merge, not a full document replace. -/
theorem lookup_applySet_not_mem (data : Doc) :
    ∀ (d : Doc) (k : String), data.lookup k = none →
      (applySet data d).lookup k = d.lookup k := by
  induction data with
  | nil => intro d k _; rfl
  | cons kv rest ih =>
    intro d k hk
    obtain ⟨a, b⟩ := kv
    by_cases hne : k = a
    · subst hne
      rw [lookup_cons_self] at hk
      exact absurd hk (by simp)
    · have hrest : rest.lookup k = none := by
        rwa [lookup_cons_ne a k b rest hne] at hk
      show (applySet rest (setField a b d)).lookup k = d.lookup k
      rw [ih (setField a b d) k hrest, lookup_setField_ne a k b d hne]

/-- All-known dispatch records every requested invocation in order. -/
theorem runDispatch_map_all_known (tcs : List MCPClient.ToolCall) :
    ∀ w : World, (∀ tc ∈ tcs, MCPClient.knownTool tc.name = true) →
      (MCPClient.runDispatch tcs w).1.map (fun r => (r.name, r.args)) =
        tcs.map fun tc => (tc.name, tc.args) := by
  induction tcs with
  | nil => intro w _; rfl
  | cons tc rest ih =>
    intro w hk
    have h1 : MCPClient.knownTool tc.name = true := hk tc (List.mem_cons_self tc rest)
    simp [MCPClient.runDispatch, h1,
      ih _ fun x hx => hk x (List.mem_cons_of_mem tc hx)]

/-- With as many records as requested invocations, the lockstep walk of
`toolMsgs` is the zip of the two lists. -/
theorem toolMsgs_eq_zip (recs : List MCPClient.ToolRecord) :
    ∀ tcs : List MCPClient.ToolCall, recs.length = tcs.length →
      MCPClient.toolMsgs recs tcs =
        (tcs.zip recs).map fun p => MCPClient.Msg.tool p.1.id p.2.name (dumps p.2.result) := by
  induction recs with
  | nil =>
    intro tcs _
    simp [MCPClient.toolMsgs]
  | cons r rs ih =>
    intro tcs h
    cases tcs with
    | nil => exact absurd h (by simp)
    | cons tc tcs' =>
      simp [MCPClient.toolMsgs, ih tcs' (by simpa using h)]

/-- Every turn produced by `toolMsgs` is a tool turn. -/
theorem toolTurns_toolMsgs (recs : List MCPClient.ToolRecord) :
    ∀ tcs : List MCPClient.ToolCall,
      MCPClient.toolTurns (MCPClient.toolMsgs recs tcs) = MCPClient.toolMsgs recs tcs := by
  induction recs with
  | nil => intro tcs; rfl
  | cons r rs ih =>
    intro tcs
    cases tcs with
    | nil => rfl
    | cons tc tcs' =>
      simp [MCPClient.toolMsgs, MCPClient.toolTurns, List.filter] at ih ⊢
      exact ih tcs'

/-!  Claim theorems. -/

/-- C1 (counterexample): dispatching the unknown tool name `ghost` through
`MCPClient.call_tool` raises (models `raise ValueError`), and in particular
does not return any result mapping to the caller — refuting the claim that
an unknown name yields an error-shaped result rather than an exception. -/
theorem c1_counterexample :
    MCPClient.call_tool "ghost" {} w0 = Except.error "Tool 'ghost' not found" ∧
    ∀ res : ToolResult × World, MCPClient.call_tool "ghost" {} w0 ≠ Except.ok res := by
  have h : MCPClient.call_tool "ghost" {} w0 = Except.error "Tool 'ghost' not found" := rfl
  refine ⟨h, fun res hres => ?_⟩
  rw [h] at hres
  exact Except.noConfusion hres

/-- C1 (amended): for every tool name not present in the registry and every
argument mapping, `MCPClient.call_tool` raises a ValueError carrying the
message `Tool '<name>' not found` (modelled as `Except.error`) instead of
returning a result mapping. -/
theorem c1_call_tool_unknown_raises (name : String) (args : Args) (w : World)
    (h : MCPClient.knownTool name = false) :
    MCPClient.call_tool name args w = Except.error ("Tool '" ++ name ++ "' not found") := by
  simp [MCPClient.call_tool, h]

/-- C1 (witness): the amended theorem applied at the concrete name `ghost`. -/
theorem c1_witness :
    MCPClient.knownTool "ghost" = false ∧
    MCPClient.call_tool "ghost" {} w0 = Except.error ("Tool '" ++ "ghost" ++ "' not found") :=
  ⟨by decide, c1_call_tool_unknown_raises "ghost" {} w0 (by decide)⟩

/-- C7: when the first completion call requests no tool invocations, the
dispatch loop returns that reply text immediately: a null tool-call record
list, no follow-up turn sequence, no second completion call, no dispatch,
and the store state untouched. -/
theorem c7_no_tools_short_circuit (query : String) (first : MCPClient.CompletionMessage)
    (second : List MCPClient.Msg → Option String) (w : World)
    (h : first.tool_calls = []) :
    MCPClient.process_query query first second w =
      { response := first.content, tool_calls := none, followUp := [],
        secondCalled := false, dispatched := [], world := w } := by
  obtain ⟨content, tcs⟩ := first
  cases tcs with
  | nil => rfl
  | cons a l => exact absurd h (by simp)

/-- C7 (witness): the theorem applied at a concrete no-tools reply. -/
theorem c7_witness :
    ({ content := some "answer", tool_calls := [] } : MCPClient.CompletionMessage).tool_calls = [] ∧
    MCPClient.process_query "hi" { content := some "answer", tool_calls := [] }
        (fun _ => none) w0 =
      { response := some "answer", tool_calls := none, followUp := [],
        secondCalled := false, dispatched := [], world := w0 } :=
  ⟨rfl, c7_no_tools_short_circuit "hi" { content := some "answer", tool_calls := [] }
    (fun _ => none) w0 rfl⟩

/-- C8: a successful response of the query endpoint carries exactly the
three top-level fields `response`, `tool_calls`, `method`, in that order,
whichever of the three processing methods produced it. -/
theorem c8_envelope_fields (method : String) (mcpResult : MCPClient.ProcessQueryResult)
    (graphResult : Facade.GraphQueryResult) (agentResult : Facade.AgentQueryResult) :
    (Facade.processQueryEndpoint method mcpResult graphResult agentResult).map Prod.fst =
      ["response", "tool_calls", "method"] := by
  unfold Facade.processQueryEndpoint
  split
  · rfl
  · split
    · rfl
    · rfl

/-- A stats invocation of the search adapter. -/
def statsArgs : Args := { operation := some "stats" }

/-- A first-completion reply requesting two invocations: one for a tool name
absent from the registry, then one for the search adapter. -/
def cexFirst : MCPClient.CompletionMessage :=
  { content := some "",
    tool_calls := [{ id := "call_0", name := "ghost", args := {} },
                   { id := "call_1", name := "chromadb", args := statsArgs }] }

/-- The stats result of the seeded vector store. -/
def statsResult : ToolResult :=
  [("count", RVal.sc (Scalar.i 15)), ("collections", RVal.strList ["knowledge_base"])]

/-- C2 (counterexample): with the requested invocations
`[ghost @ call_0, chromadb @ call_1]`, the dispatch loop skips the unknown
`ghost` invocation (so not every requested invocation is dispatched), and
the single appended tool-result turn carries the correlation id `call_0` —
the id of the `ghost` invocation — while its content is the serialized
result of the `chromadb` invocation `call_1`: the turn is not correlated to
the invocation that produced its result. -/
theorem c2_counterexample :
    (cexFirst.tool_calls.map fun tc => (tc.id, tc.name)) =
      [("call_0", "ghost"), ("call_1", "chromadb")] ∧
    (MCPClient.process_query "q" cexFirst (fun _ => some "done") w0).dispatched.map
      (fun r => r.name) = ["chromadb"] ∧
    MCPClient.toolTurns (MCPClient.process_query "q" cexFirst (fun _ => some "done") w0).followUp =
      [MCPClient.Msg.tool "call_0" "chromadb" (dumps statsResult)] :=
  ⟨rfl, rfl, rfl⟩

/-- C2 (amended): when every requested tool name is present in the registry,
each requested invocation is dispatched in the order returned (same names
and arguments, position by position), and the tool-result turns of the
follow-up sequence are exactly one turn per invocation, each carrying the
correlation id of its own invocation and the JSON serialization of the
result that invocation produced. -/
theorem c2_dispatch_correlation (query : String) (first : MCPClient.CompletionMessage)
    (second : List MCPClient.Msg → Option String) (w : World)
    (hk : ∀ tc ∈ first.tool_calls, MCPClient.knownTool tc.name = true) :
    ((MCPClient.runDispatch first.tool_calls w).1.map fun r => (r.name, r.args)) =
      (first.tool_calls.map fun tc => (tc.name, tc.args)) ∧
    MCPClient.toolTurns (MCPClient.process_query query first second w).followUp =
      (first.tool_calls.zip (MCPClient.runDispatch first.tool_calls w).1).map
        fun p => MCPClient.Msg.tool p.1.id p.2.name (dumps p.2.result) := by
  have h1 := runDispatch_map_all_known first.tool_calls w hk
  have hlen : (MCPClient.runDispatch first.tool_calls w).1.length = first.tool_calls.length := by
    simpa using congrArg List.length h1
  refine ⟨h1, ?_⟩
  by_cases he : first.tool_calls.isEmpty = true
  · have hnil : first.tool_calls = [] := List.isEmpty_iff.mp he
    simp [MCPClient.process_query, he, hnil, MCPClient.toolTurns]
  · simp only [MCPClient.process_query, if_neg he]
    have hsplit : ∀ ms : List MCPClient.Msg,
        MCPClient.toolTurns
          ([MCPClient.Msg.system MCPClient.systemPrompt, MCPClient.Msg.user query,
            MCPClient.Msg.assistant (first.content.getD "") first.tool_calls] ++ ms) =
        MCPClient.toolTurns ms := by
      intro ms
      simp [MCPClient.toolTurns, List.filter_append, List.filter]
    rw [hsplit, toolTurns_toolMsgs]
    exact toolMsgs_eq_zip _ _ hlen

/-- A first-completion reply whose two requested invocations both name
registered tools. -/
def witFirst : MCPClient.CompletionMessage :=
  { content := some "",
    tool_calls := [{ id := "call_0", name := "chromadb", args := statsArgs },
                   { id := "call_1", name := "mongodb", args := {} }] }

/-- C2 (witness): the amended theorem applied at a concrete reply whose two
requested invocations both name registered tools. -/
theorem c2_witness :
    (∀ tc ∈ witFirst.tool_calls, MCPClient.knownTool tc.name = true) ∧
    MCPClient.toolTurns (MCPClient.process_query "q" witFirst (fun _ => some "done") w0).followUp =
      (witFirst.tool_calls.zip (MCPClient.runDispatch witFirst.tool_calls w0).1).map
        fun p => MCPClient.Msg.tool p.1.id p.2.name (dumps p.2.result) :=
  ⟨by decide, (c2_dispatch_correlation "q" witFirst (fun _ => some "done") w0 (by decide)).2⟩

/-- C3 (counterexample): on the query `How many products are there?` the
record-query node takes the product branch, not the neither-keyword branch
(the keyword `product` occurs in the lowercased query), and its result does
not contain the users-collection count the claim requires. -/
theorem c3_counterexample :
    (MCPGraph.queryDatabaseNode "How many products are there?" seedDb).1.branch =
      MCPGraph.DbBranch.products ∧
    MCPGraph.DbBranch.products ≠ MCPGraph.DbBranch.neither ∧
    ((MCPGraph.queryDatabaseNode "How many products are there?" seedDb).1.result.lookup
      "users_count" = none) :=
  ⟨rfl, by decide, rfl⟩

/-- C3 (amended): for the query `How many products are there?` and every
database state, the record-query node takes the product branch, making
exactly one adapter call — `find` on the products collection with limit 5 —
and returns that call's result; the counts-for-both-collections result
belongs only to the neither-keyword branch, which this query does not
take. -/
theorem c3_product_branch (db : MongoDB) :
    (MCPGraph.queryDatabaseNode "How many products are there?" db).1.branch =
      MCPGraph.DbBranch.products ∧
    (MCPGraph.queryDatabaseNode "How many products are there?" db).1.calls =
      [MCPGraph.productsFindArgs] ∧
    (MCPGraph.queryDatabaseNode "How many products are there?" db).1.result =
      (MongoDBTool.execute MCPGraph.productsFindArgs db).1 := by
  have hu : isSubstr "user" (strLower "How many products are there?") = false := by decide
  have hp : isSubstr "product" (strLower "How many products are there?") = true := by decide
  refine ⟨?_, ?_, ?_⟩ <;> simp [MCPGraph.queryDatabaseNode, hu, hp]

/-- C4: the classification node lowercases the query and routes to
knowledge-search exactly when some search-intent keyword occurs in it, to
record-query exactly when no search-intent keyword but some record-intent
keyword occurs, and to direct exactly when neither occurs — so a query
matching both sets routes to knowledge-search — and an exception during
classification stores the error and sets the error route instead of
propagating. -/
theorem c4_classification (q : String) :
    (MCPGraph.analyzeRoute q = MCPGraph.Route.search ↔
      ∃ w ∈ MCPGraph.searchKeywords, w.toList <:+: (strLower q).toList) ∧
    (MCPGraph.analyzeRoute q = MCPGraph.Route.database ↔
      (¬ ∃ w ∈ MCPGraph.searchKeywords, w.toList <:+: (strLower q).toList) ∧
      ∃ w ∈ MCPGraph.databaseKeywords, w.toList <:+: (strLower q).toList) ∧
    (MCPGraph.analyzeRoute q = MCPGraph.Route.direct ↔
      (¬ ∃ w ∈ MCPGraph.searchKeywords, w.toList <:+: (strLower q).toList) ∧
      ¬ ∃ w ∈ MCPGraph.databaseKeywords, w.toList <:+: (strLower q).toList) ∧
    ((∃ w ∈ MCPGraph.searchKeywords, w.toList <:+: (strLower q).toList) →
      MCPGraph.analyzeRoute q = MCPGraph.Route.search) ∧
    (∀ e, MCPGraph.analyzeQueryNode (Except.error e) =
      (MCPGraph.Route.error, some ("Analysis error: " ++ e))) := by
  have hs : (MCPGraph.searchKeywords.any fun w => isSubstr w (strLower q)) = true ↔
      ∃ w ∈ MCPGraph.searchKeywords, w.toList <:+: (strLower q).toList := by
    simp [List.any_eq_true, isSubstr_eq_true_iff]
  have hd : (MCPGraph.databaseKeywords.any fun w => isSubstr w (strLower q)) = true ↔
      ∃ w ∈ MCPGraph.databaseKeywords, w.toList <:+: (strLower q).toList := by
    simp [List.any_eq_true, isSubstr_eq_true_iff]
  by_cases h1 : (MCPGraph.searchKeywords.any fun w => isSubstr w (strLower q)) = true
  · have hroute : MCPGraph.analyzeRoute q = MCPGraph.Route.search := by
      simp [MCPGraph.analyzeRoute, h1]
    have hS := hs.mp h1
    exact ⟨⟨fun _ => hS, fun _ => hroute⟩,
      ⟨fun h => absurd (hroute.symm.trans h) (by decide), fun h => absurd hS h.1⟩,
      ⟨fun h => absurd (hroute.symm.trans h) (by decide), fun h => absurd hS h.1⟩,
      fun _ => hroute, fun e => rfl⟩
  · have hnS : ¬ ∃ w ∈ MCPGraph.searchKeywords, w.toList <:+: (strLower q).toList :=
      fun hS => h1 (hs.mpr hS)
    by_cases h2 : (MCPGraph.databaseKeywords.any fun w => isSubstr w (strLower q)) = true
    · have hroute : MCPGraph.analyzeRoute q = MCPGraph.Route.database := by
        simp [MCPGraph.analyzeRoute, h1, h2]
      have hD := hd.mp h2
      exact ⟨⟨fun h => absurd (hroute.symm.trans h) (by decide), fun hS => absurd hS hnS⟩,
        ⟨fun _ => ⟨hnS, hD⟩, fun _ => hroute⟩,
        ⟨fun h => absurd (hroute.symm.trans h) (by decide), fun h => absurd hD h.2⟩,
        fun hS => absurd hS hnS, fun e => rfl⟩
    · have hnD : ¬ ∃ w ∈ MCPGraph.databaseKeywords, w.toList <:+: (strLower q).toList :=
        fun hD => h2 (hd.mpr hD)
      have hroute : MCPGraph.analyzeRoute q = MCPGraph.Route.direct := by
        simp [MCPGraph.analyzeRoute, h1, h2]
      exact ⟨⟨fun h => absurd (hroute.symm.trans h) (by decide), fun hS => absurd hS hnS⟩,
        ⟨fun h => absurd (hroute.symm.trans h) (by decide), fun h => absurd h.2 hnD⟩,
        ⟨fun _ => ⟨hnS, hnD⟩, fun _ => hroute⟩,
        fun hS => absurd hS hnS, fun e => rfl⟩

/-- C4 (witness): the classification applied at the concrete query
`What is MCP?`, which contains the search-intent keyword `what is`. -/
theorem c4_witness : MCPGraph.analyzeRoute "What is MCP?" = MCPGraph.Route.search :=
  (c4_classification "What is MCP?").1.mpr
    ⟨"what is", by decide, (isSubstr_eq_true_iff "what is" (strLower "What is MCP?")).mp (by decide)⟩

/-- C5: for every argument mapping whose operation is missing or outside the
declared operation set of the adapter concerned, the execute of both
adapters returns a mapping containing an `error` key (and, being a total
function of its inputs here, does not raise). -/
theorem c5_unsupported_operation (args : Args) (db : MongoDB) (store : ChromaStore) :
    ((∀ s, args.operation = some s → s ∉ MongoDBTool.operations) →
      hasError (MongoDBTool.execute args db).1 = true) ∧
    ((∀ s, args.operation = some s → s ∉ ChromaDBTool.operations) →
      hasError (ChromaDBTool.execute store args).1 = true) := by
  constructor
  · intro hm
    unfold MongoDBTool.execute
    cases hop : args.operation with
    | none => simp [strTruthy, hasError]
    | some s =>
      by_cases hse : s = ""
      · subst hse
        simp [strTruthy, hasError]
      · have hns := hm s hop
        simp only [MongoDBTool.operations, List.mem_cons, List.not_mem_nil, or_false,
          not_or] at hns
        obtain ⟨h1, h2, h3, h4, h5, h6⟩ := hns
        cases hcol : strTruthy args.collection with
        | false => simp [strTruthy, hse, hcol, hasError]
        | true =>
          cases hin : (collNames db).contains (args.collection.getD "") with
          | false =>
            have hnin : args.collection.getD "" ∉ collNames db := by simpa using hin
            simp [strTruthy, hse, hcol, hnin, hasError]
          | true =>
            have hmem : args.collection.getD "" ∈ collNames db := by simpa using hin
            simp [strTruthy, hse, hcol, hmem, h1, h2, h3, h4, h5, h6, hasError]
  · intro hc
    unfold ChromaDBTool.execute
    cases hop : args.operation with
    | none => simp [strTruthy, hasError]
    | some s =>
      by_cases hse : s = ""
      · subst hse
        simp [strTruthy, hasError]
      · have hns := hc s hop
        simp only [ChromaDBTool.operations, List.mem_cons, List.not_mem_nil, or_false,
          not_or] at hns
        obtain ⟨h1, h2, h3, h4⟩ := hns
        have hb0 : (s == "") = false := beq_false_of_ne hse
        simp [strTruthy, hb0, beq_false_of_ne h1, beq_false_of_ne h2,
          beq_false_of_ne h3, beq_false_of_ne h4, hasError]

/-- An argument mapping with an operation outside both declared sets. -/
def badOpArgs : Args := { operation := some "frobnicate", collection := some "users" }

/-- C5 (witness): the theorem applied at the concrete operation
`frobnicate` against the seeded stores. -/
theorem c5_witness :
    (∀ s, badOpArgs.operation = some s → s ∉ MongoDBTool.operations) ∧
    (∀ s, badOpArgs.operation = some s → s ∉ ChromaDBTool.operations) ∧
    hasError (MongoDBTool.execute badOpArgs seedDb).1 = true ∧
    hasError (ChromaDBTool.execute seedStore badOpArgs).1 = true := by
  have hm : ∀ s, badOpArgs.operation = some s → s ∉ MongoDBTool.operations := by
    intro s h
    cases h
    decide
  have hch : ∀ s, badOpArgs.operation = some s → s ∉ ChromaDBTool.operations := by
    intro s h
    cases h
    decide
  exact ⟨hm, hch, (c5_unsupported_operation badOpArgs seedDb seedStore).1 hm,
    (c5_unsupported_operation badOpArgs seedDb seedStore).2 hch⟩

/-- The argument mapping of an update call, as the claims quantify it. -/
def updateArgs (c : String) (filt data : Doc) : Args :=
  { operation := some "update", collection := some c, filter := some filt,
    data := DataVal.obj data }

/-- C6: the update operation applies a field-level merge-patch (fields
outside the patch survive) to exactly the matching records, and returns the
matched and actually-modified counts; a filter matching zero records yields
matched_count = 0 and modified_count = 0, and a no-op patch yields
modified_count = 0 with matched_count the number of matches. -/
theorem c6_update_merge_patch (db : MongoDB) (c : String) (filt data : Doc)
    (hc : c ∈ collNames db) (hcne : c ≠ "") (hd : data ≠ []) :
    (MongoDBTool.execute (updateArgs c filt data) db).1 =
      [("matched_count", RVal.sc (Scalar.i ((getColl db c).countP (matchesFilter filt)))),
       ("modified_count", RVal.sc (Scalar.i ((getColl db c).countP
          fun d => matchesFilter filt d && (applySet data d != d))))] ∧
    (MongoDBTool.execute (updateArgs c filt data) db).2 =
      setColl db c ((getColl db c).map
        fun d => if matchesFilter filt d then applySet data d else d) ∧
    (∀ (d : Doc) (k : String), data.lookup k = none →
      (applySet data d).lookup k = d.lookup k) ∧
    ((getColl db c).countP (matchesFilter filt) = 0 →
      (MongoDBTool.execute (updateArgs c filt data) db).1 =
        [("matched_count", RVal.sc (Scalar.i 0)),
         ("modified_count", RVal.sc (Scalar.i 0))]) ∧
    ((∀ d ∈ getColl db c, matchesFilter filt d = true → applySet data d = d) →
      (MongoDBTool.execute (updateArgs c filt data) db).1 =
        [("matched_count", RVal.sc (Scalar.i ((getColl db c).countP (matchesFilter filt)))),
         ("modified_count", RVal.sc (Scalar.i 0))]) := by
  have hb : (c == "") = false := beq_false_of_ne hcne
  have hde : data.isEmpty = false := by
    cases data with
    | nil => exact absurd rfl hd
    | cons a l => rfl
  have hmain : MongoDBTool.execute (updateArgs c filt data) db =
      ([("matched_count", RVal.sc (Scalar.i ((getColl db c).countP (matchesFilter filt)))),
        ("modified_count", RVal.sc (Scalar.i ((getColl db c).countP
           fun d => matchesFilter filt d && (applySet data d != d))))],
       setColl db c ((getColl db c).map
         fun d => if matchesFilter filt d then applySet data d else d)) := by
    unfold MongoDBTool.execute updateArgs
    simp [strTruthy, hb, hc, dataTruthy, hde]
  refine ⟨by rw [hmain], by rw [hmain], fun d k hk => lookup_applySet_not_mem data d k hk,
    ?_, ?_⟩
  · intro h0
    have hnone : ∀ d ∈ getColl db c, ¬(matchesFilter filt d = true) :=
      List.countP_eq_zero.mp h0
    have hmod : ((getColl db c).countP
        fun d => matchesFilter filt d && (applySet data d != d)) = 0 := by
      refine List.countP_eq_zero.mpr fun d hdm => ?_
      simp [Bool.and_eq_true]
      intro hmatch
      exact absurd hmatch (hnone d hdm)
    rw [hmain]
    simp [h0, hmod]
  · intro hnoop
    have hmod : ((getColl db c).countP
        fun d => matchesFilter filt d && (applySet data d != d)) = 0 := by
      refine List.countP_eq_zero.mpr fun d hdm => ?_
      simp [Bool.and_eq_true]
      intro hmatch
      simp [hnoop d hdm hmatch]
    rw [hmain]
    simp [hmod]

/-- C6 (witness): the theorem applied to the seeded users collection with a
filter matching the one admin record and a no-op patch re-asserting its
role field. -/
theorem c6_witness :
    ("users" ∈ collNames seedDb) ∧ ("users" ≠ "") ∧
    ([("role", Scalar.s "admin")] ≠ ([] : Doc)) ∧
    (MongoDBTool.execute
        (updateArgs "users" [("role", Scalar.s "admin")] [("role", Scalar.s "admin")])
        seedDb).1 =
      [("matched_count", RVal.sc (Scalar.i 1)), ("modified_count", RVal.sc (Scalar.i 0))] := by
  refine ⟨by decide, by decide, by decide, ?_⟩
  have h := (c6_update_merge_patch seedDb "users" [("role", Scalar.s "admin")]
    [("role", Scalar.s "admin")] (by decide) (by decide) (by decide)).1
  rw [h]
  decide

/-- An argument mapping naming a nonexistent collection with no operation. -/
def ghostCollArgs : Args := { collection := some "ghost" }

/-- C9 (counterexample): the argument mapping `collection = ghost` with no
operation names a collection absent from the seeded database, yet execute
returns the missing-operation error, not the claimed
`Collection 'ghost' does not exist` result. -/
theorem c9_counterexample :
    MongoDBTool.execute ghostCollArgs seedDb =
      ([("error", RVal.sc (Scalar.s "Operation and collection are required"))], seedDb) ∧
    ((collNames seedDb).contains "ghost") = false ∧
    (MongoDBTool.execute ghostCollArgs seedDb).1 ≠
      [("error", RVal.sc (Scalar.s "Collection 'ghost' does not exist"))] :=
  ⟨rfl, rfl, by decide⟩

/-- C9 (amended): for every argument mapping whose operation is present and
non-empty and whose collection names a collection absent from the database,
execute returns exactly the `Collection '<name>' does not exist` error and
leaves the database untouched (no operation branch runs). -/
theorem c9_missing_collection (args : Args) (db : MongoDB) (c : String)
    (hop : strTruthy args.operation = true) (hcol : args.collection = some c)
    (hcne : c ≠ "") (hnin : ((collNames db).contains c) = false) :
    MongoDBTool.execute args db =
      ([("error", RVal.sc (Scalar.s ("Collection '" ++ c ++ "' does not exist")))], db) := by
  have hb : (c == "") = false := beq_false_of_ne hcne
  have hnin2 : c ∉ collNames db := by simpa using hnin
  unfold MongoDBTool.execute
  rw [hcol]
  simp only [hop]
  simp [strTruthy, hb, hnin2]

/-- C9 (witness): the amended theorem applied at a concrete count call on
the absent collection `ghost`. -/
theorem c9_witness :
    ((collNames seedDb).contains "ghost") = false ∧
    MongoDBTool.execute { operation := some "count", collection := some "ghost" } seedDb =
      ([("error", RVal.sc (Scalar.s ("Collection '" ++ "ghost" ++ "' does not exist")))],
       seedDb) :=
  ⟨rfl, c9_missing_collection { operation := some "count", collection := some "ghost" }
    seedDb "ghost" rfl rfl (by decide) rfl⟩

/-- C10: a query operation whose query text is absent or empty returns the
`Query is required for query operation` error with an empty store trace —
the call never reaches the vector store. -/
theorem c10_empty_query_guard (store : ChromaStore) (args : Args)
    (hop : args.operation = some "query")
    (hq : args.query = none ∨ args.query = some "") :
    ChromaDBTool.execute store args =
      ([("error", RVal.sc (Scalar.s "Query is required for query operation"))],
       ([] : List ChromaOp)) := by
  unfold ChromaDBTool.execute ChromaDBTool.executeQuery
  rcases hq with hq | hq <;> simp [hop, hq, strTruthy]

/-- The query-operation argument mapping with an empty query text. -/
def emptyQueryArgs : Args := { operation := some "query", query := some "" }

/-- C10 (witness): the theorem applied at the concrete empty-string query. -/
theorem c10_witness :
    emptyQueryArgs.operation = some "query" ∧
    (emptyQueryArgs.query = none ∨ emptyQueryArgs.query = some "") ∧
    ChromaDBTool.execute seedStore emptyQueryArgs =
      ([("error", RVal.sc (Scalar.s "Query is required for query operation"))],
       ([] : List ChromaOp)) :=
  ⟨rfl, Or.inr rfl, c10_empty_query_guard seedStore emptyQueryArgs rfl (Or.inr rfl)⟩

end McpBot
